import Mathlib

/-!
Verification of the DebugConfigs tree model, mutation operations, dotted-path
resolver and serialization engine, as implemented in
src/DebugConfigTree.ts (DebugConfigTreeItem, DebugConfigTreeDataProvider)
and src/extension.ts (the extension.debugconfigs.replace command).

The shallow embedding below mirrors the TypeScript source:
 - a DebugConfigTreeItem holds a label, a collapsibleState, an optional
   string value and an optional children array; the derived display fields
   (contextValue, description, tooltip) set by updateDisplayProperties are
   pure functions of label and value, recomputed after every mutation, and
   are therefore not carried as state;
 - in-place mutation of a node is modelled by returning the updated node
   (methods that also return a boolean return a pair);
 - JavaScript reference identity used by Array.indexOf is modelled by
   structural equality (beqItem below), which is proved to coincide with
   propositional equality;
 - exceptions are modelled with Except / an error-valued component, one
   error constructor per throw site;
 - JavaScript string operations split, toLowerCase (ASCII letters) and
   includes of the dot character are modelled by executable functions on
   the character list of a String.
-/

namespace DebugConfigs

/-- JavaScript toLowerCase on one character, for the ASCII letters that label
matching in the source exercises. -/
def lowerChar (c : Char) : Char :=
  if 65 ≤ c.toNat ∧ c.toNat ≤ 90 then Char.ofNat (c.toNat + 32) else c

/-- JavaScript toLowerCase on a string (ASCII model). -/
def lowerStr (s : String) : String :=
  String.mk (s.data.map lowerChar)

/-- JavaScript label.includes of the dot character, the check used by
addRootItem, addChildToItem and deserializeTreeItems. -/
def strContainsDot (s : String) : Bool :=
  s.data.any (fun c => c = '.')

def splitOnDotAux : List Char → List Char → List String
  | [], acc => [String.mk acc.reverse]
  | c :: rest, acc =>
    if c = '.' then String.mk acc.reverse :: splitOnDotAux rest []
    else splitOnDotAux rest (c :: acc)

/-- JavaScript path.split of the dot character, as used by the replace
command; the empty string splits to a single empty segment, and consecutive
dots produce empty segments, as in JavaScript. -/
def splitOnDot (s : String) : List String :=
  splitOnDotAux s.data []

/-- vscode.TreeItemCollapsibleState: None, Collapsed, Expanded. -/
inductive CollapsibleState where
  | nonCollapsible
  | collapsed
  | expanded
deriving DecidableEq

/-- The tree node of src/DebugConfigTree.ts: constructor
(label, collapsibleState, value, children), where value and children are
optional.  The constructor stores all four fields exactly as given. -/
inductive DebugConfigTreeItem where
  | mk (label : String) (collapsibleState : CollapsibleState)
       (value : Option String) (children : Option (List DebugConfigTreeItem))

def DebugConfigTreeItem.label : DebugConfigTreeItem → String
  | .mk l _ _ _ => l

def DebugConfigTreeItem.collapsibleState : DebugConfigTreeItem → CollapsibleState
  | .mk _ c _ _ => c

def DebugConfigTreeItem.value : DebugConfigTreeItem → Option String
  | .mk _ _ v _ => v

def DebugConfigTreeItem.children : DebugConfigTreeItem → Option (List DebugConfigTreeItem)
  | .mk _ _ _ ch => ch

mutual

/-- Structural equality of nodes, the embedding of JavaScript reference
identity as used by Array.indexOf in removeChild and removeRootItem. -/
def beqItem : DebugConfigTreeItem → DebugConfigTreeItem → Bool
  | .mk l1 c1 v1 ch1, .mk l2 c2 v2 ch2 =>
    l1 == l2 && c1 == c2 && v1 == v2 && beqChildren ch1 ch2

def beqChildren : Option (List DebugConfigTreeItem) → Option (List DebugConfigTreeItem) → Bool
  | none, none => true
  | some xs, some ys => beqItemList xs ys
  | _, _ => false

def beqItemList : List DebugConfigTreeItem → List DebugConfigTreeItem → Bool
  | [], [] => true
  | x :: xs, y :: ys => beqItem x y && beqItemList xs ys
  | _, _ => false

end

/-- Array.prototype.indexOf on a node array: index of the first element
equal to the target, none when absent. -/
def listIdxOf : List DebugConfigTreeItem → DebugConfigTreeItem → Option Nat
  | [], _ => none
  | x :: xs, target =>
    if beqItem x target then some 0 else (listIdxOf xs target).map (· + 1)

/-- DebugConfigTreeItem.setValue, at the string type the tree data provider
calls it with (the typo-guard for non-primitive values cannot fire for a
string argument): stores the value; when a children list is present it is
discarded and the collapsible state reset to None. -/
def DebugConfigTreeItem.setValue : DebugConfigTreeItem → String → DebugConfigTreeItem
  | .mk l c _ none, v => .mk l c (some v) none
  | .mk l _ _ (some _), v => .mk l .nonCollapsible (some v) none

/-- DebugConfigTreeItem.addChild: appends to the children list (creating it
when absent), clears the value via resetValue, and sets the collapsible
state to Collapsed. -/
def DebugConfigTreeItem.addChild : DebugConfigTreeItem → DebugConfigTreeItem → DebugConfigTreeItem
  | .mk l _ _ none, child => .mk l .collapsed none (some [child])
  | .mk l _ _ (some cs), child => .mk l .collapsed none (some (cs ++ [child]))

/-- DebugConfigTreeItem.removeChild: returns false when no children list is
present, when it is empty, or when indexOf does not find the child;
otherwise splices the child out, and when the list becomes empty resets the
children to absent and the collapsible state to None.  The boolean result
is paired with the updated node. -/
def DebugConfigTreeItem.removeChild :
    DebugConfigTreeItem → DebugConfigTreeItem → Bool × DebugConfigTreeItem
  | .mk l c v none, _ => (false, .mk l c v none)
  | .mk l c v (some cs), child =>
    if cs.isEmpty then (false, .mk l c v (some cs))
    else
      match listIdxOf cs child with
      | none => (false, .mk l c v (some cs))
      | some i =>
        let remaining := cs.eraseIdx i
        if remaining.isEmpty then (true, .mk l .nonCollapsible v none)
        else (true, .mk l c v (some remaining))

/-- DebugConfigTreeDataProvider.setItemValue: delegates to
DebugConfigTreeItem.setValue unconditionally (refresh and saveTreeState
have no effect on the node).  The updated node is returned. -/
def setItemValue (item : DebugConfigTreeItem) (value : String) : DebugConfigTreeItem :=
  item.setValue value

/-- DebugConfigTreeDataProvider.removeRootItem: indexOf on the root list,
splice when found; returns whether the item was found together with the
updated root list. -/
def removeRootItem (rootItems : List DebugConfigTreeItem) (item : DebugConfigTreeItem) :
    Bool × List DebugConfigTreeItem :=
  match listIdxOf rootItems item with
  | none => (false, rootItems)
  | some i => (true, rootItems.eraseIdx i)

/-- DebugConfigTreeDataProvider.removeItemRecursively: walks the given list;
for every node with a children list present it first tries removeChild on
that node and returns on success, then recurses into the children, then
moves to the rest of the list.  Returns whether the item was found and
removed, together with the updated list. -/
def removeItemRecursively :
    List DebugConfigTreeItem → DebugConfigTreeItem → Bool × List DebugConfigTreeItem
  | [], _ => (false, [])
  | .mk l c v none :: rest, target =>
    let r := removeItemRecursively rest target
    (r.1, .mk l c v none :: r.2)
  | .mk l c v (some cs) :: rest, target =>
    let rc := DebugConfigTreeItem.removeChild (.mk l c v (some cs)) target
    if rc.1 then (true, rc.2 :: rest)
    else
      let rr := removeItemRecursively cs target
      if rr.1 then (true, .mk l c v (some rr.2) :: rest)
      else
        let r := removeItemRecursively rest target
        (r.1, .mk l c v (some cs) :: r.2)

/-- DebugConfigTreeDataProvider.removeItem: first tries removeRootItem and
stops when it succeeds, otherwise runs removeItemRecursively over the root
list.  The TypeScript method returns void; only the updated root list is
observable. -/
def removeItem (rootItems : List DebugConfigTreeItem) (item : DebugConfigTreeItem) :
    List DebugConfigTreeItem :=
  let rr := removeRootItem rootItems item
  if rr.1 then rr.2
  else (removeItemRecursively rootItems item).2

/-- The void return value of DebugConfigTreeDataProvider.removeItem. -/
def removeItemReturn (rootItems : List DebugConfigTreeItem) (item : DebugConfigTreeItem) :
    Unit :=
  let _ := removeItem rootItems item
  ()

/-- The found-and-removed information computed internally by removeItem
through removeRootItem and removeItemRecursively (and discarded by its void
return type). -/
def removeItemFound (rootItems : List DebugConfigTreeItem) (item : DebugConfigTreeItem) :
    Bool :=
  (removeRootItem rootItems item).1 || (removeItemRecursively rootItems item).1

/-- The JSON-compatible record produced by serializeTreeItems for one node:
an object literal with fields label, value, collapsibleState and children,
in that order, where the value and children fields may be absent
(undefined). -/
inductive NodeJSON where
  | mk (label : String) (value : Option String)
       (collapsibleState : CollapsibleState) (children : Option (List NodeJSON))

def NodeJSON.label : NodeJSON → String
  | .mk l _ _ _ => l

def NodeJSON.value : NodeJSON → Option String
  | .mk _ v _ _ => v

def NodeJSON.collapsibleState : NodeJSON → CollapsibleState
  | .mk _ _ c _ => c

def NodeJSON.children : NodeJSON → Option (List NodeJSON)
  | .mk _ _ _ ch => ch

mutual

/-- One element of DebugConfigTreeDataProvider.serializeTreeItems: maps a
node to the record with label, value, collapsibleState, and children only
when the node has a children list (an empty but present list is truthy in
JavaScript and is serialized as an empty array). -/
def serializeTreeItem : DebugConfigTreeItem → NodeJSON
  | .mk l c v none => .mk l v c none
  | .mk l c v (some cs) => .mk l v c (some (serializeTreeItems cs))

/-- DebugConfigTreeDataProvider.serializeTreeItems: maps the node list to
JSON records, preserving order. -/
def serializeTreeItems : List DebugConfigTreeItem → List NodeJSON
  | [] => []
  | item :: rest => serializeTreeItem item :: serializeTreeItems rest

end

/-- One error constructor per throw site of the embedded operations. -/
inductive TreeError where
  | invalidLabel (label : String)
  | pathArgumentRequired
  | segmentAbsent (path : String) (part : String)
  | segmentNoChildren (path : String) (part : String)
  | pathNotFound (path : String)
  | notALeaf (path : String)
deriving DecidableEq

mutual

/-- One element of DebugConfigTreeDataProvider.deserializeTreeItems: throws
invalidLabel when the label is truthy (non-empty) and contains a dot, then
deserializes the children when present (the first failing child aborts),
then rebuilds the node through the constructor, which stores value and
children exactly as given. -/
def deserializeTreeItem : NodeJSON → Except TreeError DebugConfigTreeItem
  | .mk l v c none =>
    if l != "" && strContainsDot l then .error (.invalidLabel l)
    else .ok (.mk l c v none)
  | .mk l v c (some childData) =>
    if l != "" && strContainsDot l then .error (.invalidLabel l)
    else
      match deserializeTreeItems childData with
      | .error e => .error e
      | .ok cs => .ok (.mk l c v (some cs))

/-- DebugConfigTreeDataProvider.deserializeTreeItems: element-wise
deserialization in order; the first throwing element aborts the whole
operation. -/
def deserializeTreeItems : List NodeJSON → Except TreeError (List DebugConfigTreeItem)
  | [] => .ok []
  | d :: ds =>
    match deserializeTreeItem d with
    | .error e => .error e
    | .ok item =>
      match deserializeTreeItems ds with
      | .error e => .error e
      | .ok items => .ok (item :: items)

end

/-- DebugConfigTreeDataProvider.importTreeStateFromFile after the file has
been read and parsed and the tree-state array extracted (enveloped or bare
legacy form): deserializes the whole payload first and only then replaces
the root list; a thrown deserialization error propagates and the previous
root list is left untouched.  The first component is the propagated error,
the second the provider root list after the call. -/
def importTreeState (treeStateJson : List NodeJSON)
    (rootItems : List DebugConfigTreeItem) :
    Option TreeError × List DebugConfigTreeItem :=
  match deserializeTreeItems treeStateJson with
  | .error e => (some e, rootItems)
  | .ok newRootItems => (none, newRootItems)

/-- The argument object of the extension.debugconfigs.replace command. -/
structure ReplaceArgs where
  path : String

/-- The find call of the replace command navigation loop: first node whose
label matches the segment case-insensitively. -/
def findByLabel (items : List DebugConfigTreeItem) (part : String) :
    Option DebugConfigTreeItem :=
  items.find? (fun item => lowerStr item.label == lowerStr part)

/-- The navigation loop of the replace command: for each segment, find a
case-insensitive match, else throw; when the segment text differs from the
text of the final segment, additionally require a present non-empty
children list and descend into it, else throw; when the segment text equals
the final segment text, keep the current level.  Returns the last matched
node. -/
def navigatePath (path : String) (lastPart : String) :
    List String → List DebugConfigTreeItem → Option DebugConfigTreeItem →
    Except TreeError (Option DebugConfigTreeItem)
  | [], _, currentItem => .ok currentItem
  | part :: rest, currentItems, _ =>
    match findByLabel currentItems part with
    | none => .error (.segmentAbsent path part)
    | some currentItem =>
      if part != lastPart then
        match currentItem.children with
        | none => .error (.segmentNoChildren path part)
        | some cs =>
          if cs.isEmpty then .error (.segmentNoChildren path part)
          else navigatePath path lastPart rest cs (some currentItem)
      else navigatePath path lastPart rest currentItems (some currentItem)

/-- The extension.debugconfigs.replace command handler: rejects a missing
args object or a falsy (empty) path, splits the path on dots, runs the
navigation loop from the root list, then requires the matched node to hold
a value and returns it. -/
def replaceCommand (args : Option ReplaceArgs)
    (rootItems : List DebugConfigTreeItem) : Except TreeError String :=
  match args with
  | none => .error .pathArgumentRequired
  | some a =>
    if a.path == "" then .error .pathArgumentRequired
    else
      let pathParts := splitOnDot a.path
      let lastPart := (pathParts.getLast?).getD ""
      match navigatePath a.path lastPart pathParts rootItems none with
      | .error e => .error e
      | .ok none => .error (.pathNotFound a.path)
      | .ok (some currentItem) =>
        match currentItem.value with
        | none => .error (.notALeaf a.path)
        | some v => .ok v

mutual

/-- Number of nodes in a subtree. -/
def szItem : DebugConfigTreeItem → Nat
  | .mk _ _ _ none => 1
  | .mk _ _ _ (some cs) => 1 + szList cs

/-- Number of nodes in a forest. -/
def szList : List DebugConfigTreeItem → Nat
  | [] => 0
  | item :: rest => szItem item + szList rest

end

mutual

/-- Number of occurrences of the target node (up to structural equality)
in a subtree, the node itself included. -/
def countItem : DebugConfigTreeItem → DebugConfigTreeItem → Nat
  | .mk l c v none, target =>
    if beqItem (.mk l c v none) target then 1 else 0
  | .mk l c v (some cs), target =>
    (if beqItem (.mk l c v (some cs)) target then 1 else 0) + countList cs target

/-- Number of occurrences of the target node in a forest. -/
def countList : List DebugConfigTreeItem → DebugConfigTreeItem → Nat
  | [], _ => 0
  | item :: rest, target => countItem item target + countList rest target

end

/-- Occurrences of the target among the top-level elements of a forest. -/
def countTop : List DebugConfigTreeItem → DebugConfigTreeItem → Nat
  | [], _ => 0
  | item :: rest, target =>
    (if beqItem item target then 1 else 0) + countTop rest target

/-- Occurrences of the target strictly below the top level of a forest. -/
def countBelow : List DebugConfigTreeItem → DebugConfigTreeItem → Nat
  | [], _ => 0
  | .mk _ _ _ none :: rest, target => countBelow rest target
  | .mk _ _ _ (some cs) :: rest, target => countList cs target + countBelow rest target

mutual

/-- Validity of a tree in the sense of the specification: every label is
dot-free and no node has a value and a children list simultaneously. -/
def validItem : DebugConfigTreeItem → Bool
  | .mk l _ _ none => !(strContainsDot l)
  | .mk l _ none (some cs) => !(strContainsDot l) && validItems cs
  | .mk _ _ (some _) (some _) => false

/-- Validity of a forest. -/
def validItems : List DebugConfigTreeItem → Bool
  | [] => true
  | item :: rest => validItem item && validItems rest

end

mutual

/-- Whether some node of a JSON payload, at any depth, has a label that
contains a dot. -/
def anyDottedLabelJSON : NodeJSON → Bool
  | .mk l _ _ none => strContainsDot l
  | .mk l _ _ (some childData) => strContainsDot l || anyDottedLabelsJSON childData

/-- Whether some node of a JSON payload list, at any depth, has a label
that contains a dot. -/
def anyDottedLabelsJSON : List NodeJSON → Bool
  | [] => false
  | d :: ds => anyDottedLabelJSON d || anyDottedLabelsJSON ds

end

/-- The leaf of the resolver example tree: port with value 3000. -/
def portLeaf : DebugConfigTreeItem :=
  .mk "port" .nonCollapsible (some "3000") none

/-- The middle node of the resolver example tree. -/
def developmentNode : DebugConfigTreeItem :=
  .mk "Development" .collapsed none (some [portLeaf])

/-- The root of the resolver example tree. -/
def environmentNode : DebugConfigTreeItem :=
  .mk "Environment" .collapsed none (some [developmentNode])

/-- The root list of the resolver example tree. -/
def demoRootItems : List DebugConfigTreeItem :=
  [environmentNode]

/-- A leaf child used by the setItemValue scenario. -/
def childLeaf : DebugConfigTreeItem :=
  .mk "child" .nonCollapsible (some "1") none

/-- A parent that currently owns one child, used by the setItemValue
scenario. -/
def parentWithChild : DebugConfigTreeItem :=
  .mk "parent" .collapsed none (some [childLeaf])

/-- A node that occurs nowhere in the resolver example tree. -/
def ghostNode : DebugConfigTreeItem :=
  .mk "ghost" .nonCollapsible none none

/-- A JSON payload whose top node carries a value and a non-empty children
array simultaneously. -/
def bothValueAndChildrenJSON : List NodeJSON :=
  [.mk "a" (some "v") .collapsed (some [.mk "b" (some "w") .nonCollapsible none])]

/-- The node the deserializer builds from bothValueAndChildrenJSON: value
and children both present. -/
def bothValueAndChildrenNode : DebugConfigTreeItem :=
  .mk "a" .collapsed (some "v") (some [.mk "b" .nonCollapsible (some "w") none])

/-- An import payload with one valid node and one dotted-label node. -/
def dottedImportPayload : List NodeJSON :=
  [.mk "ok" (some "1") .nonCollapsible none,
   .mk "bad.label" (some "2") .nonCollapsible none]

mutual

theorem beqItem_iff : ∀ a b : DebugConfigTreeItem, beqItem a b = true ↔ a = b
  | .mk l1 c1 v1 ch1, .mk l2 c2 v2 ch2 => by
    simp only [beqItem, Bool.and_eq_true, beq_iff_eq, DebugConfigTreeItem.mk.injEq]
    rw [beqChildren_iff ch1 ch2]
    tauto

theorem beqChildren_iff :
    ∀ a b : Option (List DebugConfigTreeItem), beqChildren a b = true ↔ a = b
  | none, none => by simp [beqChildren]
  | some xs, some ys => by
    simp only [beqChildren, Option.some.injEq]
    exact beqItemList_iff xs ys
  | none, some ys => by simp [beqChildren]
  | some xs, none => by simp [beqChildren]

theorem beqItemList_iff :
    ∀ a b : List DebugConfigTreeItem, beqItemList a b = true ↔ a = b
  | [], [] => by simp [beqItemList]
  | x :: xs, y :: ys => by
    simp only [beqItemList, Bool.and_eq_true, List.cons.injEq]
    rw [beqItem_iff x y, beqItemList_iff xs ys]
  | [], _ :: _ => by simp [beqItemList]
  | _ :: _, [] => by simp [beqItemList]

end

theorem beqItem_refl (a : DebugConfigTreeItem) : beqItem a a = true :=
  (beqItem_iff a a).mpr rfl

/-- Claim C1: the value-XOR-children invariant is, contrary to the class
documentation, not enforced at every observable point: deserializeTreeItems
(and the constructor it calls) installs a node whose value is present and
whose children list is present and non-empty simultaneously. -/
theorem deserialize_installs_value_and_children :
    deserializeTreeItems bothValueAndChildrenJSON = .ok [bothValueAndChildrenNode] ∧
    bothValueAndChildrenNode.value = some "v" ∧
    bothValueAndChildrenNode.children = some [.mk "b" .nonCollapsible (some "w") none] :=
  ⟨rfl, rfl, rfl⟩

/-- Claim C2 counterexample: setItemValue on a parent that currently owns
one child does not fail; it succeeds, silently discards the child, and
changes the tree. -/
theorem setItemValue_on_parent_succeeds :
    setItemValue parentWithChild "x" = .mk "parent" .nonCollapsible (some "x") none ∧
    setItemValue parentWithChild "x" ≠ parentWithChild ∧
    parentWithChild.children = some [childLeaf] := by
  refine ⟨rfl, ?_, rfl⟩
  intro h
  simp [setItemValue, DebugConfigTreeItem.setValue, parentWithChild, childLeaf] at h

/-- Claim C2 amended: for every node that currently owns a children list,
setItemValue succeeds for any string value, converts the node to a leaf
holding that value, and silently discards the children (the has-children
rejection exists only in the collaborator UI command, which refuses before
calling setItemValue). -/
theorem setItemValue_discards_children :
    ∀ (l : String) (c : CollapsibleState) (v : Option String)
      (cs : List DebugConfigTreeItem) (value : String),
      setItemValue (.mk l c v (some cs)) value = .mk l .nonCollapsible (some value) none ∧
      setItemValue (.mk l c v (some cs)) value ≠ .mk l c v (some cs) := by
  intro l c v cs value
  refine ⟨rfl, ?_⟩
  intro h
  simp [setItemValue, DebugConfigTreeItem.setValue] at h

/-- Claim C3: on the example tree Environment, Development, port=3000, the
replace command resolves the lowercase path and the differently-cased path
to 3000, fails with a path-not-found error naming the absent segment for
environment.staging.port, and fails with a not-a-leaf error for
environment.development. -/
theorem resolver_example_tree_behaviour :
    replaceCommand (some ⟨"environment.development.port"⟩) demoRootItems = .ok "3000" ∧
    replaceCommand (some ⟨"Environment.Development.Port"⟩) demoRootItems = .ok "3000" ∧
    replaceCommand (some ⟨"environment.staging.port"⟩) demoRootItems
      = .error (.segmentAbsent "environment.staging.port" "staging") ∧
    replaceCommand (some ⟨"environment.development"⟩) demoRootItems
      = .error (.notALeaf "environment.development") :=
  ⟨rfl, rfl, rfl, rfl⟩

/-- Claim C4: evaluation at the failing input.  The navigation loop decides
whether a segment is final by comparing segment text, not position: on the
two-segment path x.x over a root list holding only a childless leaf x, the
first (non-final) segment matches a node with no children, yet resolution
succeeds and returns the leaf value instead of failing with a
path-not-found error as the specified algorithm requires. -/
theorem replace_skips_descent_for_duplicated_final_segment :
    replaceCommand (some ⟨"x.x"⟩) [.mk "x" .nonCollapsible (some "v") none] = .ok "v" ∧
    splitOnDot "x.x" = ["x", "x"] ∧
    (DebugConfigTreeItem.mk "x" .nonCollapsible (some "v") none).children = none :=
  ⟨rfl, rfl, rfl⟩

/-- Claim C9: the replace command rejects a missing args object and the
empty-string path with the path-argument-required error before any tree
traversal, for every tree. -/
theorem replace_rejects_missing_args_and_empty_path :
    ∀ rootItems : List DebugConfigTreeItem,
      replaceCommand none rootItems = .error .pathArgumentRequired ∧
      replaceCommand (some ⟨""⟩) rootItems = .error .pathArgumentRequired :=
  fun _ => ⟨rfl, rfl⟩

theorem validItem_leaf (l : String) (c : CollapsibleState) (v : Option String) :
    validItem (.mk l c v none) = !(strContainsDot l) := by
  cases v <;> rfl

theorem validItem_parent (l : String) (c : CollapsibleState)
    (cs : List DebugConfigTreeItem) :
    validItem (.mk l c none (some cs)) = (!(strContainsDot l) && validItems cs) := rfl

theorem validItem_both (l : String) (c : CollapsibleState) (v : String)
    (cs : List DebugConfigTreeItem) :
    validItem (.mk l c (some v) (some cs)) = false := rfl

theorem validItems_cons (t : DebugConfigTreeItem) (ts : List DebugConfigTreeItem) :
    validItems (t :: ts) = (validItem t && validItems ts) := rfl

mutual

theorem roundtripItem : ∀ t : DebugConfigTreeItem, validItem t = true →
    deserializeTreeItem (serializeTreeItem t) = .ok t
  | .mk l c v none, h => by
    have h' : (!(strContainsDot l)) = true := by
      rw [← validItem_leaf l c v]
      exact h
    have hd : strContainsDot l = false := by
      cases hx : strContainsDot l
      · rfl
      · exact absurd h' (by rw [hx]; decide)
    have hcond : (l != "" && strContainsDot l) = false := by
      rw [hd, Bool.and_false]
    show deserializeTreeItem (.mk l v c none) = .ok (.mk l c v none)
    simp [deserializeTreeItem, hcond]
  | .mk l c none (some cs), h => by
    have h' : (!(strContainsDot l) && validItems cs) = true := by
      rw [← validItem_parent l c cs]
      exact h
    have hd : strContainsDot l = false := by
      cases hx : strContainsDot l
      · rfl
      · exact absurd h' (by rw [hx]; simp)
    have h2 : validItems cs = true := by
      have h2' := h'
      rw [hd] at h2'
      simpa using h2'
    have hr := roundtripItems cs h2
    have hcond : (l != "" && strContainsDot l) = false := by
      rw [hd, Bool.and_false]
    show deserializeTreeItem (.mk l none c (some (serializeTreeItems cs)))
      = .ok (.mk l c none (some cs))
    simp [deserializeTreeItem, hcond, hr]
  | .mk l c (some v) (some cs), h => by
    exact absurd h (by rw [validItem_both]; decide)

theorem roundtripItems : ∀ ts : List DebugConfigTreeItem, validItems ts = true →
    deserializeTreeItems (serializeTreeItems ts) = .ok ts
  | [], _ => rfl
  | t :: ts, h => by
    have h' : (validItem t && validItems ts) = true := by
      rw [← validItems_cons t ts]
      exact h
    have h1 : validItem t = true := by
      cases hx : validItem t
      · exact absurd h' (by rw [hx]; simp)
      · rfl
    have h2 : validItems ts = true := by
      have h2' := h'
      rw [h1] at h2'
      simpa using h2'
    have r1 := roundtripItem t h1
    have r2 := roundtripItems ts h2
    show deserializeTreeItems (serializeTreeItem t :: serializeTreeItems ts)
      = .ok (t :: ts)
    simp [deserializeTreeItems, r1, r2]

end

/-- Claim C6: for every valid tree (dot-free labels, value-XOR-children
respected), deserializing the serialization yields the tree back exactly:
labels, values, collapsible states and the order of every children list
are preserved. -/
theorem serialize_roundtrip (ts : List DebugConfigTreeItem)
    (h : validItems ts = true) :
    deserializeTreeItems (serializeTreeItems ts) = .ok ts :=
  roundtripItems ts h

/-- Claim C6 witness: the round trip evaluated on the concrete example
tree. -/
theorem serialize_roundtrip_witness :
    validItems demoRootItems = true ∧
    deserializeTreeItems (serializeTreeItems demoRootItems) = .ok demoRootItems :=
  ⟨by decide, serialize_roundtrip demoRootItems (by decide)⟩

theorem dotGuard_true (l : String) (h : strContainsDot l = true) :
    (l != "" && strContainsDot l) = true := by
  rw [h, Bool.and_true]
  cases hb : l == "" with
  | false => simp [bne, hb]
  | true =>
    have he : l = "" := eq_of_beq hb
    subst he
    exact absurd h (by decide)

mutual

theorem deser_ok_item : ∀ d : NodeJSON, anyDottedLabelJSON d = false →
    ∃ t, deserializeTreeItem d = .ok t
  | .mk l v c none, h => by
    simp only [anyDottedLabelJSON] at h
    exact ⟨.mk l c v none, by simp [deserializeTreeItem, h]⟩
  | .mk l v c (some childData), h => by
    simp only [anyDottedLabelJSON, Bool.or_eq_false_iff] at h
    obtain ⟨cs, hcs⟩ := deser_ok_items childData h.2
    exact ⟨.mk l c v (some cs), by simp [deserializeTreeItem, h.1, hcs]⟩

theorem deser_ok_items : ∀ ds : List NodeJSON, anyDottedLabelsJSON ds = false →
    ∃ ts, deserializeTreeItems ds = .ok ts
  | [], _ => ⟨[], rfl⟩
  | d :: ds, h => by
    simp only [anyDottedLabelsJSON, Bool.or_eq_false_iff] at h
    obtain ⟨t, ht⟩ := deser_ok_item d h.1
    obtain ⟨ts, hts⟩ := deser_ok_items ds h.2
    exact ⟨t :: ts, by simp [deserializeTreeItems, ht, hts]⟩

end

mutual

theorem deser_err_item : ∀ d : NodeJSON, anyDottedLabelJSON d = true →
    ∃ e, deserializeTreeItem d = .error e
  | .mk l v c none, h => by
    simp only [anyDottedLabelJSON] at h
    exact ⟨.invalidLabel l, by simp [deserializeTreeItem, dotGuard_true l h]⟩
  | .mk l v c (some childData), h => by
    simp only [anyDottedLabelJSON, Bool.or_eq_true] at h
    cases hd : strContainsDot l with
    | true =>
      exact ⟨.invalidLabel l, by simp [deserializeTreeItem, dotGuard_true l hd]⟩
    | false =>
      have hcd : anyDottedLabelsJSON childData = true := by
        rcases h with h | h
        · rw [hd] at h; cases h
        · exact h
      obtain ⟨e, he⟩ := deser_err_items childData hcd
      exact ⟨e, by simp [deserializeTreeItem, hd, he]⟩

theorem deser_err_items : ∀ ds : List NodeJSON, anyDottedLabelsJSON ds = true →
    ∃ e, deserializeTreeItems ds = .error e
  | [], h => by simp [anyDottedLabelsJSON] at h
  | d :: ds, h => by
    simp only [anyDottedLabelsJSON, Bool.or_eq_true] at h
    cases hd : anyDottedLabelJSON d with
    | true =>
      obtain ⟨e, he⟩ := deser_err_item d hd
      exact ⟨e, by simp [deserializeTreeItems, he]⟩
    | false =>
      have hds : anyDottedLabelsJSON ds = true := by
        rcases h with h | h
        · rw [hd] at h; cases h
        · exact h
      obtain ⟨t, ht⟩ := deser_ok_item d hd
      obtain ⟨e, he⟩ := deser_err_items ds hds
      exact ⟨e, by simp [deserializeTreeItems, ht, he]⟩

end

/-- Claim C5: importing a payload in which any node at any depth has a
label containing a dot fails the whole operation with an error and leaves
the prior root list fully intact; the root list is replaced only after the
whole payload deserializes successfully. -/
theorem import_dotted_label_leaves_tree_intact
    (treeStateJson : List NodeJSON) (rootItems : List DebugConfigTreeItem)
    (h : anyDottedLabelsJSON treeStateJson = true) :
    (importTreeState treeStateJson rootItems).2 = rootItems ∧
    (importTreeState treeStateJson rootItems).1 ≠ none := by
  obtain ⟨e, he⟩ := deser_err_items treeStateJson h
  exact ⟨by simp [importTreeState, he], by simp [importTreeState, he]⟩

/-- Claim C5 witness: a payload with one valid node and one dotted-label
node fails the import and leaves the example tree untouched. -/
theorem import_dotted_label_witness :
    anyDottedLabelsJSON dottedImportPayload = true ∧
    ((importTreeState dottedImportPayload demoRootItems).2 = demoRootItems ∧
     (importTreeState dottedImportPayload demoRootItems).1 ≠ none) :=
  ⟨by decide,
   import_dotted_label_leaves_tree_intact dottedImportPayload demoRootItems (by decide)⟩

theorem serializeTreeItems_eq_map :
    ∀ ts : List DebugConfigTreeItem, serializeTreeItems ts = ts.map serializeTreeItem
  | [] => rfl
  | t :: ts => by simp [serializeTreeItems, serializeTreeItems_eq_map ts]

/-- Claim C7 counterexample: the serialized record is not exactly the shape
with label, value and optional children: two nodes that agree on label,
value and children but differ in collapsible state serialize to different
records, because serialization also emits a collapsibleState field. -/
theorem serialize_records_collapsibleState :
    serializeTreeItem (.mk "a" .collapsed (some "v") none)
      ≠ serializeTreeItem (.mk "a" .expanded (some "v") none) ∧
    (serializeTreeItem (.mk "a" .collapsed (some "v") none)).collapsibleState
      = .collapsed := by
  refine ⟨?_, rfl⟩
  intro h
  simp [serializeTreeItem] at h

/-- Claim C7 amended: serialization maps every node to the record with
fields label, value, collapsibleState and optional children, preserving
sibling order and length, copying label, value and collapsible state
verbatim, and emitting the children field exactly when the node has a
children list (omitting it for leaves). -/
theorem serialize_shape_and_order :
    ∀ (ts : List DebugConfigTreeItem) (i : Nat),
      (serializeTreeItems ts).length = ts.length ∧
      ((serializeTreeItems ts)[i]?).map NodeJSON.label
        = (ts[i]?).map DebugConfigTreeItem.label ∧
      ((serializeTreeItems ts)[i]?).map NodeJSON.value
        = (ts[i]?).map DebugConfigTreeItem.value ∧
      ((serializeTreeItems ts)[i]?).map NodeJSON.collapsibleState
        = (ts[i]?).map DebugConfigTreeItem.collapsibleState ∧
      ((serializeTreeItems ts)[i]?).map (fun d => d.children.isNone)
        = (ts[i]?).map (fun t => t.children.isNone) := by
  intro ts i
  rw [serializeTreeItems_eq_map]
  refine ⟨by simp, ?_, ?_, ?_, ?_⟩ <;>
  · rw [List.getElem?_map]
    cases ts[i]? with
    | none => rfl
    | some t => cases t with
      | mk l c v ch => cases ch <;> rfl

theorem szItem_leaf (l : String) (c : CollapsibleState) (v : Option String) :
    szItem (.mk l c v none) = 1 := rfl

theorem szItem_parent (l : String) (c : CollapsibleState) (v : Option String)
    (cs : List DebugConfigTreeItem) :
    szItem (.mk l c v (some cs)) = 1 + szList cs := rfl

theorem szList_nil : szList [] = 0 := rfl

theorem szList_cons (x : DebugConfigTreeItem) (xs : List DebugConfigTreeItem) :
    szList (x :: xs) = szItem x + szList xs := rfl

theorem countItem_leaf (l : String) (c : CollapsibleState) (v : Option String)
    (target : DebugConfigTreeItem) :
    countItem (.mk l c v none) target
      = if beqItem (.mk l c v none) target then 1 else 0 := rfl

theorem countItem_parent (l : String) (c : CollapsibleState) (v : Option String)
    (cs : List DebugConfigTreeItem) (target : DebugConfigTreeItem) :
    countItem (.mk l c v (some cs)) target
      = (if beqItem (.mk l c v (some cs)) target then 1 else 0) + countList cs target := rfl

theorem countList_nil (target : DebugConfigTreeItem) : countList [] target = 0 := rfl

theorem countList_cons (x : DebugConfigTreeItem) (xs : List DebugConfigTreeItem)
    (target : DebugConfigTreeItem) :
    countList (x :: xs) target = countItem x target + countList xs target := rfl

theorem countTop_nil (target : DebugConfigTreeItem) : countTop [] target = 0 := rfl

theorem countTop_cons (x : DebugConfigTreeItem) (xs : List DebugConfigTreeItem)
    (target : DebugConfigTreeItem) :
    countTop (x :: xs) target
      = (if beqItem x target then 1 else 0) + countTop xs target := rfl

theorem countBelow_nil (target : DebugConfigTreeItem) : countBelow [] target = 0 := rfl

theorem countBelow_cons_leaf (l : String) (c : CollapsibleState) (v : Option String)
    (rest : List DebugConfigTreeItem) (target : DebugConfigTreeItem) :
    countBelow (.mk l c v none :: rest) target = countBelow rest target := rfl

theorem countBelow_cons_parent (l : String) (c : CollapsibleState) (v : Option String)
    (cs rest : List DebugConfigTreeItem) (target : DebugConfigTreeItem) :
    countBelow (.mk l c v (some cs) :: rest) target
      = countList cs target + countBelow rest target := rfl

theorem listIdxOf_cons (x : DebugConfigTreeItem) (xs : List DebugConfigTreeItem)
    (target : DebugConfigTreeItem) :
    listIdxOf (x :: xs) target
      = if beqItem x target then some 0 else (listIdxOf xs target).map (fun n => n + 1) := rfl

theorem listIdxOf_eq_none (target : DebugConfigTreeItem) :
    ∀ xs : List DebugConfigTreeItem,
      countTop xs target = 0 → listIdxOf xs target = none := by
  intro xs
  induction xs with
  | nil => intro _; rfl
  | cons x xs ih =>
    intro h
    rw [countTop_cons] at h
    cases hb : beqItem x target with
    | true =>
      rw [hb] at h
      simp at h
    | false =>
      rw [hb] at h
      simp at h
      rw [listIdxOf_cons, hb]
      simp [ih h]

theorem countTop_eq_zero_of_idx_none (target : DebugConfigTreeItem) :
    ∀ xs : List DebugConfigTreeItem,
      listIdxOf xs target = none → countTop xs target = 0 := by
  intro xs
  induction xs with
  | nil => intro _; rfl
  | cons x xs ih =>
    intro h
    rw [listIdxOf_cons] at h
    cases hb : beqItem x target with
    | true => rw [hb] at h; simp at h
    | false =>
      rw [hb] at h
      simp at h
      rw [countTop_cons, hb]
      simp [ih h]

theorem listIdxOf_some_sz (target : DebugConfigTreeItem) :
    ∀ (xs : List DebugConfigTreeItem) (i : Nat),
      listIdxOf xs target = some i →
      szList (xs.eraseIdx i) + szItem target = szList xs := by
  intro xs
  induction xs with
  | nil => intro i h; cases h
  | cons x xs ih =>
    intro i h
    rw [listIdxOf_cons] at h
    cases hb : beqItem x target with
    | true =>
      rw [hb] at h
      simp at h
      have hx : x = target := (beqItem_iff x target).mp hb
      subst hx
      rw [← h]
      show szList xs + szItem x = szList (x :: xs)
      rw [szList_cons]
      omega
    | false =>
      rw [hb] at h
      simp only [Bool.false_eq_true, if_false] at h
      cases hidx : listIdxOf xs target with
      | none =>
        rw [hidx] at h
        simp at h
      | some j =>
        rw [hidx] at h
        simp only [Option.map_some'] at h
        injection h with h2
        rw [← h2]
        show szList ((x :: xs).eraseIdx (j + 1)) + szItem target = szList (x :: xs)
        rw [show (x :: xs).eraseIdx (j + 1) = x :: xs.eraseIdx j from rfl,
            szList_cons, szList_cons]
        have := ih j hidx
        omega

theorem countList_eq_top_below (target : DebugConfigTreeItem) :
    ∀ xs : List DebugConfigTreeItem,
      countList xs target = countTop xs target + countBelow xs target := by
  intro xs
  induction xs with
  | nil => rfl
  | cons x xs ih =>
    cases x with
    | mk l c v ch =>
      cases ch with
      | none =>
        rw [countList_cons, countItem_leaf, countTop_cons, countBelow_cons_leaf, ih]
        omega
      | some cs =>
        rw [countList_cons, countItem_parent, countTop_cons, countBelow_cons_parent, ih]
        omega

theorem removeChild_parent_eq (l : String) (c : CollapsibleState) (v : Option String)
    (cs : List DebugConfigTreeItem) (target : DebugConfigTreeItem) :
    DebugConfigTreeItem.removeChild (.mk l c v (some cs)) target =
      (if cs.isEmpty then (false, .mk l c v (some cs))
       else
         match listIdxOf cs target with
         | none => (false, .mk l c v (some cs))
         | some i =>
           let remaining := cs.eraseIdx i
           if remaining.isEmpty then (true, .mk l .nonCollapsible v none)
           else (true, .mk l c v (some remaining))) := rfl

theorem removeChild_idx_none (l : String) (c : CollapsibleState) (v : Option String)
    (cs : List DebugConfigTreeItem) (target : DebugConfigTreeItem)
    (h : listIdxOf cs target = none) :
    DebugConfigTreeItem.removeChild (.mk l c v (some cs)) target
      = (false, .mk l c v (some cs)) := by
  rw [removeChild_parent_eq]
  cases he : cs.isEmpty with
  | true => simp [he]
  | false => simp [he, h]

theorem removeChild_idx_some (l : String) (c : CollapsibleState) (v : Option String)
    (cs : List DebugConfigTreeItem) (target : DebugConfigTreeItem) (i : Nat)
    (h : listIdxOf cs target = some i) :
    (DebugConfigTreeItem.removeChild (.mk l c v (some cs)) target).1 = true ∧
    szItem (DebugConfigTreeItem.removeChild (.mk l c v (some cs)) target).2 + szItem target
      = szItem (.mk l c v (some cs)) := by
  have hne : cs.isEmpty = false := by
    cases cs
    · cases h
    · rfl
  have hsz := listIdxOf_some_sz target cs i h
  rw [removeChild_parent_eq, hne]
  simp only [Bool.false_eq_true, if_false, h]
  cases hre : (cs.eraseIdx i).isEmpty with
  | true =>
    have hnil : cs.eraseIdx i = [] := by
      cases hE : cs.eraseIdx i
      · rfl
      · rw [hE] at hre; cases hre
    rw [hnil, szList_nil] at hsz
    simp [hre, szItem_leaf, szItem_parent]
    omega
  | false =>
    simp [hre, szItem_parent]
    omega

theorem removeItemRecursively_nil (target : DebugConfigTreeItem) :
    removeItemRecursively [] target = (false, []) := rfl

theorem removeItemRecursively_cons_leaf (l : String) (c : CollapsibleState)
    (v : Option String) (rest : List DebugConfigTreeItem) (target : DebugConfigTreeItem) :
    removeItemRecursively (.mk l c v none :: rest) target =
      ((removeItemRecursively rest target).1,
       .mk l c v none :: (removeItemRecursively rest target).2) := rfl

theorem removeItemRecursively_cons_parent (l : String) (c : CollapsibleState)
    (v : Option String) (cs rest : List DebugConfigTreeItem)
    (target : DebugConfigTreeItem) :
    removeItemRecursively (.mk l c v (some cs) :: rest) target =
      (let rc := DebugConfigTreeItem.removeChild (.mk l c v (some cs)) target
       if rc.1 then (true, rc.2 :: rest)
       else
         let rr := removeItemRecursively cs target
         if rr.1 then (true, .mk l c v (some rr.2) :: rest)
         else
           let r := removeItemRecursively rest target
           (r.1, .mk l c v (some cs) :: r.2)) := rfl

theorem removeItemRecursively_spec :
    ∀ (items : List DebugConfigTreeItem) (target : DebugConfigTreeItem),
      ((removeItemRecursively items target).1 = decide (0 < countBelow items target)) ∧
      (0 < countBelow items target →
        szList (removeItemRecursively items target).2 + szItem target = szList items) ∧
      (countBelow items target = 0 → (removeItemRecursively items target).2 = items)
  | [], target => by
    refine ⟨rfl, ?_, fun _ => rfl⟩
    intro h
    rw [countBelow_nil] at h
    exact absurd h (by omega)
  | .mk l c v none :: rest, target => by
    have ih := removeItemRecursively_spec rest target
    refine ⟨?_, ?_, ?_⟩
    · rw [removeItemRecursively_cons_leaf, countBelow_cons_leaf]
      exact ih.1
    · intro h
      rw [countBelow_cons_leaf] at h
      rw [removeItemRecursively_cons_leaf]
      have h2 := ih.2.1 h
      show szList (.mk l c v none :: (removeItemRecursively rest target).2) + szItem target
        = szList (.mk l c v none :: rest)
      rw [szList_cons, szList_cons]
      omega
    · intro h
      rw [countBelow_cons_leaf] at h
      rw [removeItemRecursively_cons_leaf]
      show (.mk l c v none :: (removeItemRecursively rest target).2) = _
      rw [ih.2.2 h]
  | .mk l c v (some cs) :: rest, target => by
    have ihcs := removeItemRecursively_spec cs target
    have ihrest := removeItemRecursively_spec rest target
    cases hidx : listIdxOf cs target with
    | some i =>
      have hrc := removeChild_idx_some l c v cs target i hidx
      have htop : countTop cs target ≠ 0 := by
        intro h0
        rw [listIdxOf_eq_none target cs h0] at hidx
        cases hidx
      have hcnt : 0 < countBelow (.mk l c v (some cs) :: rest) target := by
        rw [countBelow_cons_parent, countList_eq_top_below]
        omega
      have hEq : removeItemRecursively (.mk l c v (some cs) :: rest) target
          = (true, (DebugConfigTreeItem.removeChild (.mk l c v (some cs)) target).2 :: rest) := by
        rw [removeItemRecursively_cons_parent]
        simp [hrc.1]
      refine ⟨?_, ?_, ?_⟩
      · rw [hEq]
        exact (decide_eq_true hcnt).symm
      · intro _
        rw [hEq]
        show szList ((DebugConfigTreeItem.removeChild (.mk l c v (some cs)) target).2 :: rest)
            + szItem target = szList (.mk l c v (some cs) :: rest)
        rw [szList_cons, szList_cons]
        have := hrc.2
        omega
      · intro h
        exact absurd h (by omega)
    | none =>
      have hrc := removeChild_idx_none l c v cs target hidx
      have htop : countTop cs target = 0 := countTop_eq_zero_of_idx_none target cs hidx
      have hcnt : countBelow (.mk l c v (some cs) :: rest) target
          = countBelow cs target + countBelow rest target := by
        rw [countBelow_cons_parent, countList_eq_top_below]
        omega
      rcases Nat.eq_zero_or_pos (countBelow cs target) with hz | hp
      · have hflag : (removeItemRecursively cs target).1 = false := by
          rw [ihcs.1, hz]
          rfl
        have hEq : removeItemRecursively (.mk l c v (some cs) :: rest) target
            = ((removeItemRecursively rest target).1,
               .mk l c v (some cs) :: (removeItemRecursively rest target).2) := by
          rw [removeItemRecursively_cons_parent]
          simp [hrc, hflag]
        refine ⟨?_, ?_, ?_⟩
        · rw [hEq]
          show (removeItemRecursively rest target).1 = _
          rw [ihrest.1, hcnt, hz, Nat.zero_add]
        · intro h
          rw [hcnt, hz, Nat.zero_add] at h
          rw [hEq]
          show szList (.mk l c v (some cs) :: (removeItemRecursively rest target).2)
              + szItem target = szList (.mk l c v (some cs) :: rest)
          rw [szList_cons, szList_cons]
          have := ihrest.2.1 h
          omega
        · intro h
          rw [hcnt, hz, Nat.zero_add] at h
          rw [hEq]
          show (.mk l c v (some cs) :: (removeItemRecursively rest target).2) = _
          rw [ihrest.2.2 h]
      · have hflag : (removeItemRecursively cs target).1 = true := by
          rw [ihcs.1]
          simp [hp]
        have hEq : removeItemRecursively (.mk l c v (some cs) :: rest) target
            = (true, .mk l c v (some (removeItemRecursively cs target).2) :: rest) := by
          rw [removeItemRecursively_cons_parent]
          simp [hrc, hflag]
        have hpos : 0 < countBelow (.mk l c v (some cs) :: rest) target := by
          rw [hcnt]
          omega
        refine ⟨?_, ?_, ?_⟩
        · rw [hEq]
          exact (decide_eq_true hpos).symm
        · intro _
          rw [hEq]
          show szList (.mk l c v (some (removeItemRecursively cs target).2) :: rest)
              + szItem target = szList (.mk l c v (some cs) :: rest)
          rw [szList_cons, szList_cons, szItem_parent, szItem_parent]
          have := ihcs.2.1 hp
          omega
        · intro h
          exact absurd h (by omega)

theorem removeRootItem_idx_none (roots : List DebugConfigTreeItem)
    (target : DebugConfigTreeItem) (h : listIdxOf roots target = none) :
    removeRootItem roots target = (false, roots) := by
  unfold removeRootItem
  rw [h]

theorem removeRootItem_idx_some (roots : List DebugConfigTreeItem)
    (target : DebugConfigTreeItem) (i : Nat) (h : listIdxOf roots target = some i) :
    removeRootItem roots target = (true, roots.eraseIdx i) := by
  unfold removeRootItem
  rw [h]

theorem removeItem_eq (roots : List DebugConfigTreeItem) (target : DebugConfigTreeItem) :
    removeItem roots target =
      (if (removeRootItem roots target).1 then (removeRootItem roots target).2
       else (removeItemRecursively roots target).2) := rfl

/-- Claim C8 counterexample: removeItem does not return whether the node
was found and removed: its return value is void and is identical whether
the node occurred in the tree (and was removed) or not, as shown on the
example tree with a node that occurs and one that does not. -/
theorem removeItem_returns_no_information :
    removeItemFound demoRootItems portLeaf = true ∧
    removeItemFound demoRootItems ghostNode = false ∧
    removeItemReturn demoRootItems portLeaf = removeItemReturn demoRootItems ghostNode :=
  ⟨rfl, rfl, rfl⟩

/-- Claim C8 amended: removeItem searches the root list first and then
recursively through all subtrees, and removes the node wherever it occurs
in the hierarchy, but returns nothing; the found-and-removed flag is
computed internally (by removeRootItem and removeItemRecursively) and
discarded.  Internally the search succeeds exactly when the node occurs
anywhere in the tree, and when it occurs, one occurrence with its whole
subtree is removed from wherever it sits in the hierarchy. -/
theorem removeItem_search_and_removal :
    ∀ (rootItems : List DebugConfigTreeItem) (target : DebugConfigTreeItem),
      removeItemFound rootItems target = decide (0 < countList rootItems target) ∧
      (0 < countList rootItems target →
        szList (removeItem rootItems target) + szItem target = szList rootItems) := by
  intro roots target
  have hdec := countList_eq_top_below target roots
  cases hidx : listIdxOf roots target with
  | some i =>
    have htop : countTop roots target ≠ 0 := by
      intro h0
      rw [listIdxOf_eq_none target roots h0] at hidx
      cases hidx
    have hsz := listIdxOf_some_sz target roots i hidx
    have hroot := removeRootItem_idx_some roots target i hidx
    constructor
    · unfold removeItemFound
      rw [hroot]
      simp only [Bool.true_or]
      have : 0 < countList roots target := by omega
      simp [this]
    · intro _
      rw [removeItem_eq, hroot]
      simpa using hsz
  | none =>
    have htop : countTop roots target = 0 := countTop_eq_zero_of_idx_none target roots hidx
    have hroot := removeRootItem_idx_none roots target hidx
    have spec := removeItemRecursively_spec roots target
    constructor
    · unfold removeItemFound
      rw [hroot, spec.1]
      simp only [Bool.false_or]
      have hbc : countBelow roots target = countList roots target := by omega
      rw [hbc]
    · intro hpos
      have hbp : 0 < countBelow roots target := by omega
      rw [removeItem_eq, hroot]
      simp only [if_false, Bool.false_eq_true]
      exact spec.2.1 hbp

/-- Claim C8 amended witness: on the example tree, the internal search
reports the nested port leaf as found, and removing it shrinks the tree by
exactly the size of that node. -/
theorem removeItem_search_and_removal_witness :
    (0 < countList demoRootItems portLeaf) ∧
    szList (removeItem demoRootItems portLeaf) + szItem portLeaf = szList demoRootItems :=
  ⟨by decide, (removeItem_search_and_removal demoRootItems portLeaf).2 (by decide)⟩

/-- Claim C10: removing a node that occurs nowhere in the tree leaves the
root list completely unchanged: every node keeps its label, value,
children list and sibling order. -/
theorem removeItem_absent_leaves_tree_unchanged
    (rootItems : List DebugConfigTreeItem) (target : DebugConfigTreeItem)
    (h : countList rootItems target = 0) :
    removeItem rootItems target = rootItems := by
  have hdec := countList_eq_top_below target rootItems
  have htop : countTop rootItems target = 0 := by omega
  have hbelow : countBelow rootItems target = 0 := by omega
  have hidx : listIdxOf rootItems target = none := listIdxOf_eq_none target rootItems htop
  rw [removeItem_eq, removeRootItem_idx_none rootItems target hidx]
  simp only [if_false, Bool.false_eq_true]
  exact (removeItemRecursively_spec rootItems target).2.2 hbelow

/-- Claim C10 witness: removing a node that does not occur in the example
tree returns the example tree unchanged. -/
theorem removeItem_absent_witness :
    countList demoRootItems ghostNode = 0 ∧
    removeItem demoRootItems ghostNode = demoRootItems :=
  ⟨by decide, removeItem_absent_leaves_tree_unchanged demoRootItems ghostNode (by decide)⟩

end DebugConfigs
